import Mathlib

/-!
Shallow embedding of the data-reconciliation pipeline in `src/app.py`
(`map_columns`, `find_price_column`, `process_data`).

Modelling conventions:
* A spreadsheet cell is `Cell`: `na` models pandas `NaN` (missing), `str`
  a text cell, `num` a numeric cell (exact rationals in place of floats;
  none of the verified properties depends on rounding).
* A DataFrame is `RawTable`: an ordered list of column labels plus rows of
  cells aligned with the labels by position.
* `astype(str)` is `cellToStr` (`NaN` becomes the literal string `"nan"`,
  as in pandas); the rendering of numeric cells is a simplified decimal
  rendering, and no verified property depends on it.
* `pd.to_numeric(errors='coerce')` is `toNumeric`; for string cells it
  parses optional sign, integer part and fractional part, which matches
  Python on that grammar (exponents etc. are outside the inputs considered).
* `Series.str.contains(kw, na=False)` performs a regular-expression search
  (`re.search`) with the keyword as the pattern.  The embedding models the
  pattern language restricted to literal characters and the `.` wildcard
  (`RTok`); theorems that quantify over keywords either carry a hypothesis
  restricting the keyword to that fragment or use concrete keywords in it.
* Errors are the spec's taxonomy mapped onto the exceptions the code
  raises: `schemaError`/`noPriceColumn` for the two `KeyError`s,
  `noMatch` for the `ValueError` of the empty-filter branch, and
  `typeError` for the `TypeError` that `', '.join` raises when one of the
  sampled college values is not a string.
-/

inductive Cell where
  | na : Cell
  | str : String → Cell
  | num : ℚ → Cell
deriving DecidableEq, Repr

def Cell.isNA : Cell → Bool
  | .na => true
  | _ => false

/-- Simplified decimal rendering of a rational, used only to model
`astype(str)` on numeric cells; no verified property depends on it. -/
def ratToStr (q : ℚ) : String :=
  if q.den = 1 then toString q.num else toString q.num ++ "/" ++ toString q.den

/-- Models Python `str()` as applied by `astype(str)`: `NaN` renders as
the literal string `"nan"`. -/
def cellToStr : Cell → String
  | .na => "nan"
  | .str s => s
  | .num q => ratToStr q

/-- Value of a digit string (`none` when a non-digit occurs).
`digitsVal [] = some 0`; callers guard emptiness themselves. -/
def digitsVal (cs : List Char) : Option Nat :=
  if cs.all Char.isDigit then
    some (cs.foldl (fun a c => a * 10 + (c.toNat - 48)) 0)
  else none

/-- Python `str.strip()`: remove whitespace from both ends.  (Defined
over the character list rather than through `String.trim` so that it is
directly computable; the two agree on ordinary whitespace.) -/
def pyStrip (s : String) : String :=
  ⟨((s.data.dropWhile Char.isWhitespace).reverse.dropWhile
      Char.isWhitespace).reverse⟩

/-- Python `str.lower()`: character-wise lowering.  (Same note as
`pyStrip` regarding `String.toLower`.) -/
def lowerStr (s : String) : String := ⟨s.data.map Char.toLower⟩

/-- Split a character list at the first `.`, if any. -/
def splitDot : List Char → List Char × Option (List Char)
  | [] => ([], none)
  | c :: tl =>
      if c = '.' then ([], some tl)
      else
        let p := splitDot tl
        (c :: p.1, p.2)

/-- Models `pd.to_numeric(errors='coerce')` on a string cell: optional
surrounding whitespace, optional sign, decimal integer and/or fraction
(a second `.` fails the digit test of the fractional part, as in Python). -/
def parseNumStr (s : String) : Option ℚ :=
  let cs := (pyStrip s).data
  let sgn : ℚ := match cs with | '-' :: _ => -1 | _ => 1
  let body := match cs with | '-' :: tl => tl | '+' :: tl => tl | _ => cs
  if body.isEmpty then none else
  match splitDot body with
  | (ip, none) => (digitsVal ip).map (fun n => sgn * n)
  | (ip, some fp) =>
      if ip.isEmpty && fp.isEmpty then none
      else
        match digitsVal ip, digitsVal fp with
        | some i, some f => some (sgn * ((i : ℚ) + (f : ℚ) / ((10 : ℚ) ^ fp.length)))
        | _, _ => none

/-- Behaviour of `pd.to_numeric(errors='coerce')` on a cell: numbers pass through,
missing values coerce to `NaN` (`none`), strings are parsed. -/
def toNumeric : Cell → Option ℚ
  | .num q => some q
  | .na => none
  | .str s => parseNumStr s

/-- Boolean test that `nd` starts `hay`. -/
def isPrefixB : List Char → List Char → Bool
  | [], _ => true
  | _ :: _, [] => false
  | a :: as, b :: bs => a == b && isPrefixB as bs

/-- Boolean test that `nd` occurs as a contiguous substring of `hay`;
models Python's `nd in hay` on strings. -/
def substrB (nd : List Char) : List Char → Bool
  | [] => isPrefixB nd []
  | c :: tl => isPrefixB nd (c :: tl) || substrB nd tl

/-- Python `needle in hay` for strings. -/
def strContains (hay needle : String) : Bool := substrB needle.data hay.data

/-- Token of the modelled regular-expression fragment: a literal
character or the `.` wildcard. -/
inductive RTok where
  | lit : Char → RTok
  | dot : RTok
deriving DecidableEq, Repr

/-- Match of one token against one character; the wildcard matches any
character except a newline, as Python's `re` does. -/
def tokMatch : RTok → Char → Bool
  | .lit a, c => a == c
  | .dot, c => c != '\n'

/-- Match the whole pattern starting at the head of the text. -/
def rmatchAt : List RTok → List Char → Bool
  | [], _ => true
  | _ :: _, [] => false
  | t :: ts, c :: cs => tokMatch t c && rmatchAt ts cs

/-- Model of `re.search`: the pattern matches at some position of the text. -/
def rsearch (p : List RTok) : List Char → Bool
  | [] => rmatchAt p []
  | c :: tl => rmatchAt p (c :: tl) || rsearch p tl

/-- Interpret a keyword as a pattern of the modelled fragment: `.` is the
wildcard, every other character a literal. -/
def parseRegex (kw : String) : List RTok :=
  kw.data.map (fun c => if c == '.' then RTok.dot else RTok.lit c)

/-- Python `re` metacharacters.  Keywords free of them behave as plain
substring searches under `re.search`. -/
def isRegexMeta (c : Char) : Bool :=
  c == '.' || c == '*' || c == '+' || c == '?' || c == '(' || c == ')' ||
  c == '[' || c == ']' || c == '\x7b' || c == '\x7d' || c == '|' ||
  c == '^' || c == '$' || c == '\\'

/-- Keyword patterns covered by the embedding of `Series.str.contains`:
only literal characters and the `.` wildcard. -/
def patOK (kw : String) : Bool :=
  kw.data.all (fun c => !(isRegexMeta c) || c == '.')

/-- Models `df['学院'].str.contains(kw, na=False)` on one cell: only a
string cell can match (missing and numeric cells give `False` via
`na=False`), and matching is a regex search with the keyword as pattern. -/
def cellMatches (kw : String) : Cell → Bool
  | .str s => rsearch (parseRegex kw) s.data
  | _ => false

/-- A DataFrame: ordered column labels and rows of cells aligned with the
labels by position. -/
structure RawTable where
  cols : List String
  rows : List (List Cell)
deriving DecidableEq, Repr

/-- Cell of row `r` in the column labelled `label` (first matching label,
`NaN` when absent). -/
def RawTable.get (t : RawTable) (r : List Cell) (label : String) : Cell :=
  match t.cols.findIdx? (fun c => c == label) with
  | some i => r.getD i Cell.na
  | none => Cell.na

/-- Error taxonomy of the run (see the module docstring for the mapping
onto the exceptions in `src/app.py`). -/
inductive PErr where
  | schemaError (missing : List String)
  | noPriceColumn
  | noMatch (keyword : String) (samples : List String)
  | typeError
deriving DecidableEq, Repr

/-- Model of `{v: k for k, v in column_map.items()}`: a Python dict comprehension
keeps the last binding of a repeated key, hence the `reverse`. -/
def reverseMap (m : List (String × String)) : List (String × String) :=
  m.reverse.map (fun p => (p.2, p.1))

/-- Model of `df.rename(columns=reverse_map)`: labels found in the inverse map are
replaced, all others pass through. -/
def renameCols (m : List (String × String)) (cols : List String) : List String :=
  cols.map (fun c => match (reverseMap m).lookup c with | some v => v | none => c)

/-- Canonical fields of the map with no column after renaming
(in map order; Python uses a set difference, which also names them all). -/
def missingCols (m : List (String × String)) (cols : List String) : List String :=
  (m.map Prod.fst).filter (fun k => !(renameCols m cols).contains k)

/-- Model of `map_columns` (src/app.py lines 29-35): rename columns through the
inverted map and fail with a `SchemaError` naming every missing canonical
field when any is absent. -/
def map_columns (t : RawTable) (m : List (String × String)) : Except PErr RawTable :=
  if (missingCols m t.cols).isEmpty then
    Except.ok ⟨renameCols m t.cols, t.rows⟩
  else
    Except.error (PErr.schemaError (missingCols m t.cols))

/-- First-pass test of `find_price_column`: the label contains the marker
`折后价` (the `.lower()` variant is kept from the source; `'折后价'.lower()`
is `'折后价'` itself). -/
def markerMatch (col : String) : Bool :=
  strContains col "折后价" || strContains (lowerStr col) "折后价"

/-- Second-pass test of `find_price_column`: the label contains `折` or,
case-insensitively, `discount`. -/
def discountMatch (col : String) : Bool :=
  strContains col "折" || strContains (lowerStr col) "discount"

/-- Model of `find_price_column` (src/app.py lines 37-45): first column matching
the marker pass, else first column matching the discount pass, else none. -/
def find_price_column (cols : List String) : Option String :=
  match cols.find? markerMatch with
  | some c => some c
  | none => (cols.filter discountMatch).head?

def STUDENT_COLUMN_MAP : List (String × String) :=
  [("学号", "学号"), ("姓名", "姓名"), ("学院", "学院"),
   ("专业", "专业"), ("行政班", "行政班"), ("ISBN", "ISBN")]

def BOOK_COLUMN_MAP : List (String × String) := [("ISBN", "ISBN")]

/-- Student row after `map_columns`, read off the six canonical columns
(the `usecols` filter of the Excel read only restricts the input to these
same labels and is immaterial to everything downstream). -/
structure SRow where
  sid : Cell
  name : Cell
  college : Cell
  major : Cell
  klass : Cell
  isbn : Cell
deriving DecidableEq, Repr

def toSRows (t : RawTable) : List SRow :=
  t.rows.map (fun r =>
    ⟨t.get r "学号", t.get r "姓名", t.get r "学院",
     t.get r "专业", t.get r "行政班", t.get r "ISBN"⟩)

/-- Book row after the projection `df_book_with_isbn[['ISBN', price_col]]`
and the rename of the price column (src/app.py lines 72-73). -/
structure BRow where
  isbn : Cell
  price : Cell
deriving DecidableEq, Repr

def toBRows (t : RawTable) (priceCol : String) : List BRow :=
  t.rows.map (fun r => ⟨t.get r "ISBN", t.get r priceCol⟩)

/-- Line 79: `dropna(subset=['学号','ISBN'], how='all')` — drop a row only
when both the id and the ISBN are missing. -/
def dropBothNA (ss : List SRow) : List SRow :=
  ss.filter (fun r => !(r.sid.isNA && r.isbn.isNA))

/-- Student row after lines 80-81 stringify and strip id and ISBN. -/
structure SRow2 where
  sid : String
  name : Cell
  college : Cell
  major : Cell
  klass : Cell
  isbn : String
deriving DecidableEq, Repr

/-- Lines 80-81: `astype(str).str.strip()` on `学号` and `ISBN`. -/
def stringifyStudent (ss : List SRow) : List SRow2 :=
  ss.map (fun r =>
    ⟨pyStrip (cellToStr r.sid), r.name, r.college, r.major, r.klass,
     pyStrip (cellToStr r.isbn)⟩)

/-- Cleaned book row: stringified/stripped ISBN and parsed price. -/
structure BRow2 where
  isbn : String
  price : ℚ
deriving DecidableEq, Repr

/-- Lines 83-86: drop book rows missing both fields, stringify/strip the
ISBN, coerce the price, keep only rows whose price parsed. -/
def cleanBooks (bs : List BRow) : List BRow2 :=
  ((bs.filter (fun r => !(r.isbn.isNA && r.price.isNA))).map
      (fun r => (pyStrip (cellToStr r.isbn), toNumeric r.price))).filterMap
    (fun p => p.2.map (fun q => (⟨p.1, q⟩ : BRow2)))

/-- Python dict insertion: replace the binding in place when the key
exists, append otherwise. -/
def dictInsert : List (String × ℚ) → String → ℚ → List (String × ℚ)
  | [], k, v => [(k, v)]
  | (a, b) :: tl, k, v =>
      if a == k then (k, v) :: tl else (a, b) :: dictInsert tl k v

/-- Line 92: `dict(zip(df_book['ISBN'], df_book['折后价']))`. -/
def priceDict (bs : List BRow2) : List (String × ℚ) :=
  bs.foldl (fun d r => dictInsert d r.isbn r.price) []

/-- Dict lookup, as exercised by `Series.map(price_dict)`. -/
def dictGet (d : List (String × ℚ)) (k : String) : Option ℚ :=
  (d.find? (fun p => p.1 == k)).map (·.2)

/-- Line 89: `df_student[df_student['ISBN'].isin(df_book['ISBN'])]`. -/
def restrictToKnown (ss : List SRow2) (bs : List BRow2) : List SRow2 :=
  ss.filter (fun r => bs.any (fun b => b.isbn == r.isbn))

/-- Joined row; `unitPrice = none` models a `NaN` produced by the price
lookup (line 93). -/
structure JRowO where
  sid : String
  name : Cell
  college : Cell
  major : Cell
  klass : Cell
  isbn : String
  unitPrice : Option ℚ
deriving DecidableEq, Repr

/-- Line 93: `df_student['单册价格'] = df_student['ISBN'].map(price_dict)`. -/
def attachPrice (d : List (String × ℚ)) (ss : List SRow2) : List JRowO :=
  ss.map (fun r => ⟨r.sid, r.name, r.college, r.major, r.klass, r.isbn,
                    dictGet d r.isbn⟩)

/-- Line 94: `df_student[df_student['单册价格'].notna()]`. -/
def dropNoPrice (js : List JRowO) : List JRowO :=
  js.filter (fun r => r.unitPrice.isSome)

/-- Lines 79-94 as one stage: clean both tables, restrict students to
known ISBNs, attach prices, drop rows whose price lookup came back NaN. -/
def joinStage (ss : List SRow) (bs : List BRow) : List JRowO :=
  let ss2 := stringifyStudent (dropBothNA ss)
  let bs2 := cleanBooks bs
  dropNoPrice (attachPrice (priceDict bs2) (restrictToKnown ss2 bs2))

/-- The numeric unit price of a joined row (every row that survives
`dropNoPrice` has `unitPrice = some _`, see `C9_price_guard_redundant`). -/
def unitP (r : JRowO) : ℚ := r.unitPrice.getD 0

/-- Line 100: `df_student[df_student['学院'].str.contains(kw, na=False)]`. -/
def filterByCollege (kw : String) (js : List JRowO) : List JRowO :=
  js.filter (fun r => cellMatches kw r.college)

/-- Model of `Series.unique()`: distinct values in order of first occurrence. -/
def uniqList {α : Type} [BEq α] (l : List α) : List α :=
  l.foldl (fun acc c => if acc.contains c then acc else acc ++ [c]) []

/-- Model of `', '.join(...)` over sampled college cells: succeeds only when every
cell is a string; a missing (`NaN`, a float) or numeric cell raises a
`TypeError` in Python, modelled by `none`. -/
def joinSamples : List Cell → Option (List String)
  | [] => some []
  | Cell.str s :: tl => (joinSamples tl).map (fun l => s :: l)
  | _ => none

/-- Composite grouping key of line 109's
`groupby(['学号','姓名','学院','专业','行政班'])`. -/
structure GKey where
  sid : String
  name : Cell
  college : Cell
  major : Cell
  klass : Cell
deriving DecidableEq, Repr

def keyOf (r : JRowO) : GKey := ⟨r.sid, r.name, r.college, r.major, r.klass⟩

/-- pandas `groupby` drops groups whose key contains `NaN` (its default
`dropna=True`); `sid` is already a string and can never be `NaN`. -/
def keyValid (k : GKey) : Bool :=
  !(k.name.isNA || k.college.isNA || k.major.isNA || k.klass.isNA)

/-- One row of the group-summary table (`df_result`). -/
structure GRow where
  key : GKey
  totalCost : ℚ
deriving DecidableEq, Repr

/-- Group keys in order of first occurrence.  (pandas sorts the groups by
key; none of the verified properties depends on row order, only on
membership, lengths and sums, which agree for any order.) -/
def groupKeys (js : List JRowO) : List GKey :=
  uniqList ((js.filter (fun r => keyValid (keyOf r))).map keyOf)

/-- Lines 109-113: per-group sum of the unit prices. -/
def groupSummary (js : List JRowO) : List GRow :=
  (groupKeys js).map
    (fun k => ⟨k, ((js.filter (fun r => keyOf r == k)).map unitP).sum⟩)

/-- One row of the purchase-detail table (`df_detail`). -/
structure DRow where
  sid : String
  name : Cell
  college : Cell
  major : Cell
  klass : Cell
  isbn : String
  unitPrice : ℚ
  personalTotal : ℚ
deriving DecidableEq, Repr

/-- Lines 115-116: every filtered row, annotated with
`groupby('学号')['单册价格'].transform('sum')` — the running total over
rows sharing the same student id. -/
def detailRows (js : List JRowO) : List DRow :=
  js.map (fun r =>
    ⟨r.sid, r.name, r.college, r.major, r.klass, r.isbn, unitP r,
     ((js.filter (fun x => x.sid == r.sid)).map unitP).sum⟩)

/-- The summary record of lines 118-126.  The timestamp is I/O and is
omitted; `meanCost = none` models the `NaN` that `Series.mean()` returns
on an empty frame. -/
structure RunSummary where
  keyword : String
  matchedColleges : List Cell
  priceColSource : String
  totalStudents : ℕ
  totalCost : ℚ
  meanCost : Option ℚ
deriving DecidableEq, Repr

def mkSummary (kw pc : String) (filtered : List JRowO) : RunSummary :=
  let res := groupSummary filtered
  ⟨kw, uniqList (filtered.map (fun r => r.college)), pc, res.length,
   (res.map (fun g => g.totalCost)).sum,
   if res.isEmpty then none
   else some ((res.map (fun g => g.totalCost)).sum / (res.length : ℚ))⟩

/-- The three outputs of a successful run. -/
structure Output where
  summary : RunSummary
  result : List GRow
  detail : List DRow
deriving DecidableEq, Repr

/-- Lines 99-126: filter by college keyword; on an empty result raise the
no-match error carrying up to 10 distinct pre-filter college values
(which must all be strings for the message join to succeed); otherwise
build the two result tables and the summary. -/
def aggregate (kw pc : String) (js : List JRowO) : Except PErr Output :=
  let filtered := filterByCollege kw js
  if filtered.isEmpty then
    match joinSamples ((uniqList (js.map (fun r => r.college))).take 10) with
    | some samples => Except.error (PErr.noMatch kw samples)
    | none => Except.error PErr.typeError
  else
    Except.ok ⟨mkSummary kw pc filtered, groupSummary filtered,
               detailRows filtered⟩

/-- Model of `process_data` (src/app.py lines 47-138), omitting the Excel file
I/O: normalize the student schema, check the book table's ISBN column,
resolve the price column (a fatal error when absent), then run the
join/clean stage and the aggregation. -/
def process_data (st bt : RawTable) (kw : String) : Except PErr Output :=
  match map_columns st STUDENT_COLUMN_MAP with
  | Except.error e => Except.error e
  | Except.ok dfS =>
    match map_columns bt BOOK_COLUMN_MAP with
    | Except.error e => Except.error e
    | Except.ok dfB =>
      match find_price_column dfB.cols with
      | none => Except.error PErr.noPriceColumn
      | some pc => aggregate kw pc (joinStage (toSRows dfS) (toBRows dfB pc))

/-- The last price bound to `k` in table order, if any. -/
def lastPrice (bs : List BRow2) (k : String) : Option ℚ :=
  ((bs.filter (fun b => b.isbn == k)).getLast?).map (fun b => b.price)

/-- Composite key of a detail row (same five fields as the groupby key). -/
def dKey (d : DRow) : GKey := ⟨d.sid, d.name, d.college, d.major, d.klass⟩

/-! Concrete tables used by witnesses and counterexamples. -/

/-- One well-formed student row in the canonical column layout. -/
def exStudent1 : RawTable :=
  ⟨["学号", "姓名", "学院", "专业", "行政班", "ISBN"],
   [[Cell.str "1", Cell.str "甲", Cell.str "计算机学院", Cell.str "软件工程",
     Cell.str "1班", Cell.str "111"]]⟩

/-- One book row with a positive price. -/
def exBook1 : RawTable :=
  ⟨["ISBN", "折后价"], [[Cell.str "111", Cell.num 50]]⟩

/-- One student id appearing on two rows with different names. -/
def exStudentDupId : RawTable :=
  ⟨["学号", "姓名", "学院", "专业", "行政班", "ISBN"],
   [[Cell.str "1", Cell.str "甲", Cell.str "计算机学院", Cell.str "软件工程",
     Cell.str "1班", Cell.str "111"],
    [Cell.str "1", Cell.str "乙", Cell.str "计算机学院", Cell.str "软件工程",
     Cell.str "1班", Cell.str "222"]]⟩

/-- Two books with distinct ISBNs and prices 50 and 60. -/
def exBookDup : RawTable :=
  ⟨["ISBN", "折后价"],
   [[Cell.str "111", Cell.num 50], [Cell.str "222", Cell.num 60]]⟩

/-- A book whose price parses to the negative number −5. -/
def exBookNeg : RawTable :=
  ⟨["ISBN", "折后价"], [[Cell.str "111", Cell.num (-5)]]⟩

/-- A student of the 文学院 college (for the empty-match scenario). -/
def exStudentWen : RawTable :=
  ⟨["学号", "姓名", "学院", "专业", "行政班", "ISBN"],
   [[Cell.str "1", Cell.str "甲", Cell.str "文学院", Cell.str "中文",
     Cell.str "1班", Cell.str "111"]]⟩

/-- A student row whose college cell is missing. -/
def exStudentNaCollege : RawTable :=
  ⟨["学号", "姓名", "学院", "专业", "行政班", "ISBN"],
   [[Cell.str "1", Cell.str "甲", Cell.na, Cell.str "中文",
     Cell.str "1班", Cell.str "111"]]⟩

/-- Two book rows sharing ISBN `111`, priced 50 then 60. -/
def exBooksTwice : List BRow :=
  [⟨Cell.str "111", Cell.num 50⟩, ⟨Cell.str "111", Cell.num 60⟩]

/-- One student holding ISBN `111`. -/
def exStudentsHold : List SRow :=
  [⟨Cell.str "1", Cell.str "甲", Cell.str "计算机学院", Cell.str "软",
    Cell.str "班", Cell.str "111"⟩]

/-- The joined row `joinStage exStudentsHold exBooksTwice` produces. -/
def exJoinedRow : JRowO :=
  ⟨"1", Cell.str "甲", Cell.str "计算机学院", Cell.str "软", Cell.str "班",
   "111", some 60⟩

/-- A student row whose id cell is missing but whose ISBN is present. -/
def exRowNaSid : SRow :=
  ⟨Cell.na, Cell.str "甲", Cell.str "计算机学院", Cell.str "软",
   Cell.str "班", Cell.str "111"⟩

/-- The student table holding only `exRowNaSid`. -/
def exStudentNaSid : RawTable :=
  ⟨["学号", "姓名", "学院", "专业", "行政班", "ISBN"],
   [[Cell.na, Cell.str "甲", Cell.str "计算机学院", Cell.str "软",
     Cell.str "班", Cell.str "111"]]⟩

/-- A student table missing the 学院 and 专业 columns. -/
def exStudentMissing : RawTable :=
  ⟨["学号", "姓名", "行政班", "ISBN"], []⟩

/-- The joined rows the successful run on `exStudent1`/`exBook1` filters
to (keyword `计算机`). -/
def exFiltered1 : List JRowO :=
  [⟨"1", Cell.str "甲", Cell.str "计算机学院", Cell.str "软件工程",
    Cell.str "1班", "111", some 50⟩]

/-- The joined rows of the run on `exStudentDupId`/`exBookDup`. -/
def exFilteredDup : List JRowO :=
  [⟨"1", Cell.str "甲", Cell.str "计算机学院", Cell.str "软件工程",
    Cell.str "1班", "111", some 50⟩,
   ⟨"1", Cell.str "乙", Cell.str "计算机学院", Cell.str "软件工程",
    Cell.str "1班", "222", some 60⟩]

/-- The group key of the single student of `exFiltered1`. -/
def exKey1 : GKey :=
  ⟨"1", Cell.str "甲", Cell.str "计算机学院", Cell.str "软件工程",
   Cell.str "1班"⟩

/-- The group-summary row of `exFiltered1` in the form `groupSummary`
produces it. -/
def exGRow1 : GRow :=
  ⟨exKey1, ((exFiltered1.filter (fun r => keyOf r == exKey1)).map unitP).sum⟩

/-! Helper lemmas. -/

theorem rmatchAt_lits (nd : List Char) :
    ∀ hay : List Char, rmatchAt (nd.map RTok.lit) hay = isPrefixB nd hay := by
  induction nd with
  | nil => intro hay; rfl
  | cons a as ih =>
      intro hay
      cases hay with
      | nil => rfl
      | cons b bs => simp [rmatchAt, isPrefixB, tokMatch, ih]

theorem rsearch_lits (nd : List Char) :
    ∀ hay : List Char, rsearch (nd.map RTok.lit) hay = substrB nd hay := by
  intro hay
  induction hay with
  | nil => simp [rsearch, substrB, rmatchAt_lits]
  | cons c tl ih => simp [rsearch, substrB, rmatchAt_lits, ih]

theorem parseRegex_noMeta (kw : String)
    (h : ∀ c ∈ kw.data, isRegexMeta c = false) :
    parseRegex kw = kw.data.map RTok.lit := by
  apply List.map_congr_left
  intro c hc
  have hne : c ≠ '.' := by
    intro he
    have hm := h c hc
    rw [he] at hm
    exact absurd hm (by decide)
  simp [hne]

theorem cellMatches_noMeta (kw : String)
    (h : ∀ c ∈ kw.data, isRegexMeta c = false) (c : Cell) :
    cellMatches kw c = true ↔ ∃ s, c = Cell.str s ∧ strContains s kw = true := by
  cases c with
  | na => simp [cellMatches]
  | num q => simp [cellMatches]
  | str s =>
      simp only [cellMatches, parseRegex_noMeta kw h, rsearch_lits]
      constructor
      · intro hs; exact ⟨s, rfl, hs⟩
      · rintro ⟨s', hs', hc⟩
        cases hs'
        exact hc

theorem dictGet_cons (a : String) (b : ℚ) (tl : List (String × ℚ))
    (k' : String) :
    dictGet ((a, b) :: tl) k' = if a = k' then some b else dictGet tl k' := by
  by_cases h : a = k' <;> simp [dictGet, List.find?_cons, h]

theorem dictGet_dictInsert (d : List (String × ℚ)) (k : String) (v : ℚ)
    (k' : String) :
    dictGet (dictInsert d k v) k' = if k' = k then some v else dictGet d k' := by
  induction d with
  | nil =>
      by_cases h : k' = k
      · simp [dictInsert, dictGet_cons, dictGet, h]
      · have h2 : ¬ k = k' := fun hh => h hh.symm
        simp [dictInsert, dictGet_cons, dictGet, h, h2]
  | cons p tl ih =>
      obtain ⟨a, b⟩ := p
      by_cases hak : a = k
      · subst hak
        by_cases h : k' = a
        · simp [dictInsert, dictGet_cons, h]
        · have h2 : ¬ a = k' := fun hh => h hh.symm
          simp [dictInsert, dictGet_cons, h, h2]
      · by_cases h : k' = k
        · subst h
          simp [dictInsert, dictGet_cons, hak, ih,
                fun hh : a = k' => hak hh]
        · by_cases h2 : a = k' <;>
            simp [dictInsert, dictGet_cons, hak, ih, h, h2]

theorem dictGet_foldl (bs : List BRow2) :
    ∀ d k, dictGet (bs.foldl (fun d r => dictInsert d r.isbn r.price) d) k =
      match lastPrice bs k with
      | some v => some v
      | none => dictGet d k := by
  induction bs with
  | nil => intro d k; simp [lastPrice]
  | cons r tl ih =>
      intro d k
      simp only [List.foldl_cons, ih]
      by_cases hk : r.isbn = k
      · have hfil : (r :: tl).filter (fun b => b.isbn == k) =
            r :: tl.filter (fun b => b.isbn == k) := by
          simp [List.filter_cons, hk]
        cases hft : tl.filter (fun b => b.isbn == k) with
        | nil =>
            simp [lastPrice, hfil, hft, dictGet_dictInsert, hk]
        | cons x xs =>
            obtain ⟨y, hy⟩ : ∃ y, (x :: xs).getLast? = some y := by
              cases h' : (x :: xs).getLast? with
              | some y => exact ⟨y, rfl⟩
              | none =>
                  exact absurd h' (by simp)
            simp [lastPrice, hfil, hft, List.getLast?_cons_cons, hy]
      · have hfil : (r :: tl).filter (fun b => b.isbn == k) =
            tl.filter (fun b => b.isbn == k) := by
          simp [List.filter_cons, hk]
        have h2 : ¬ k = r.isbn := fun hh => hk hh.symm
        simp [lastPrice, hfil, dictGet_dictInsert, h2]

theorem dictGet_priceDict (bs : List BRow2) (k : String) :
    dictGet (priceDict bs) k = lastPrice bs k := by
  rw [priceDict, dictGet_foldl]
  cases h : lastPrice bs k <;> simp [dictGet]

theorem lastPrice_isSome (bs : List BRow2) (k : String)
    (h : bs.any (fun b => b.isbn == k) = true) :
    (lastPrice bs k).isSome = true := by
  rw [List.any_eq_true] at h
  obtain ⟨b, hb, hbk⟩ := h
  have hmem : b ∈ bs.filter (fun b => b.isbn == k) :=
    List.mem_filter.mpr ⟨hb, hbk⟩
  have hne : bs.filter (fun b => b.isbn == k) ≠ [] := by
    intro hnil
    rw [hnil] at hmem
    exact absurd hmem (List.not_mem_nil b)
  have hsome := List.getLast?_isSome.mpr hne
  rw [lastPrice]
  cases hl : (bs.filter (fun b => b.isbn == k)).getLast? with
  | none => rw [hl] at hsome; exact absurd hsome (by simp)
  | some y => simp [hl]

theorem find?_first_match {α : Type} (p : α → Bool) :
    ∀ (pre : List α) (c : α) (post : List α),
      (∀ x ∈ pre, p x = false) → p c = true →
      List.find? p (pre ++ c :: post) = some c := by
  intro pre
  induction pre with
  | nil => intro c post _ hc; simp [List.find?_cons, hc]
  | cons a tl ih =>
      intro c post hpre hc
      have ha : p a = false := hpre a (by simp)
      simp only [List.cons_append, List.find?_cons, ha]
      exact ih c post (fun x hx => hpre x (by simp [hx])) hc

theorem filter_head_match {α : Type} (p : α → Bool) :
    ∀ (pre : List α) (c : α) (post : List α),
      (∀ x ∈ pre, p x = false) → p c = true →
      (List.filter p (pre ++ c :: post)).head? = some c := by
  intro pre
  induction pre with
  | nil => intro c post _ hc; simp [List.filter_cons, hc]
  | cons a tl ih =>
      intro c post hpre hc
      have ha : p a = false := hpre a (by simp)
      simp only [List.cons_append, List.filter_cons, ha]
      simpa using ih c post (fun x hx => hpre x (by simp [hx])) hc

/-- Inversion of a successful `aggregate`: the filtered set is nonempty
and the output is exactly the summary/result/detail triple built from it. -/
theorem aggregate_ok (kw pc : String) (js : List JRowO) (o : Output)
    (h : aggregate kw pc js = Except.ok o) :
    filterByCollege kw js ≠ [] ∧
    o = ⟨mkSummary kw pc (filterByCollege kw js),
         groupSummary (filterByCollege kw js),
         detailRows (filterByCollege kw js)⟩ := by
  rw [aggregate] at h
  by_cases hf : (filterByCollege kw js).isEmpty
  · rw [if_pos hf] at h
    cases hj : joinSamples ((uniqList (js.map (fun r => r.college))).take 10) with
    | none => rw [hj] at h; exact absurd h (by simp)
    | some samples => rw [hj] at h; exact absurd h (by simp)
  · rw [if_neg hf] at h
    refine ⟨by simpa [List.isEmpty_iff] using hf, ?_⟩
    cases h
    rfl

/-- Inversion of a successful `process_data`: both schema maps succeeded,
a price column was found, and `aggregate` produced the output. -/
theorem process_ok (st bt : RawTable) (kw : String) (o : Output)
    (h : process_data st bt kw = Except.ok o) :
    ∃ dfS dfB pc,
      map_columns st STUDENT_COLUMN_MAP = Except.ok dfS ∧
      map_columns bt BOOK_COLUMN_MAP = Except.ok dfB ∧
      find_price_column dfB.cols = some pc ∧
      aggregate kw pc (joinStage (toSRows dfS) (toBRows dfB pc)) =
        Except.ok o := by
  rw [process_data] at h
  split at h
  · exact absurd h (by simp)
  · rename_i dfS h1
    split at h
    · exact absurd h (by simp)
    · rename_i dfB h2
      split at h
      · exact absurd h (by simp)
      · rename_i pc h3
        exact ⟨dfS, dfB, pc, h1, h2, h3, h⟩

/-- Filtering the detail table by a full composite key and projecting the
unit price is the same as filtering the underlying joined rows. -/
theorem detail_filter_by_key (js : List JRowO) (k : GKey) :
    ((detailRows js).filter (fun d => dKey d == k)).map (fun d => d.unitPrice) =
      (js.filter (fun r => keyOf r == k)).map unitP := by
  rw [detailRows, List.filter_map, List.map_map]
  rfl

/-- C1 (amended): book-table cleaning keeps exactly the rows that are not
missing both fields and whose price parses; the parsed value is carried
over unchanged, with no positivity requirement.  (See
`C1_counterexample`: a price parsing to −5 is kept.) -/
theorem C1_books_kept_iff_price_parses (bs : List BRow) (b2 : BRow2) :
    b2 ∈ cleanBooks bs ↔
      ∃ b, b ∈ bs ∧ (b.isbn.isNA && b.price.isNA) = false ∧
        toNumeric b.price = some b2.price ∧ b2.isbn = pyStrip (cellToStr b.isbn) := by
  rw [cleanBooks]
  simp only [List.mem_filterMap, List.mem_map, List.mem_filter]
  constructor
  · rintro ⟨p, ⟨b, ⟨hb, hcond⟩, rfl⟩, hmap⟩
    rw [Option.map_eq_some'] at hmap
    obtain ⟨q, hq, hb2⟩ := hmap
    cases hb2
    refine ⟨b, hb, ?_, hq, rfl⟩
    cases hx : (b.isbn.isNA && b.price.isNA)
    · rfl
    · rw [hx] at hcond; exact absurd hcond (by simp)
  · rintro ⟨b, hb, hcond, hnum, hisbn⟩
    refine ⟨((pyStrip (cellToStr b.isbn)), toNumeric b.price),
            ⟨b, ⟨hb, by simp [hcond]⟩, rfl⟩, ?_⟩
    rw [hnum]
    cases b2
    simp at hisbn ⊢
    exact hisbn.symm

/-- C1 counterexample: the claim says a book row whose price parses to a
non-positive number is dropped and no `JoinedRecord` carries a
non-positive `unit_price`; but on a book priced −5 the whole run succeeds
and the joined detail row carries `unit_price = -5 < 0`. -/
theorem C1_counterexample :
    (process_data exStudent1 exBookNeg "计算机").map
        (fun o => o.detail.map (fun d => d.unitPrice)) =
      Except.ok [-5] ∧ ((-5 : ℚ) < 0) := by
  constructor
  · rfl
  · decide

/-- C4 (amended): the college filter applies the keyword as a regular
expression (`Series.str.contains`); for keywords free of regex
metacharacters this coincides with the claim: a row is kept iff its
college is a (non-null) string containing the keyword as a case-sensitive
substring.  The empty keyword satisfies the hypothesis, so it keeps every
row with a non-null string college; missing colleges are never kept. -/
theorem C4_filter_literal_keyword (kw : String) (js : List JRowO) (r : JRowO)
    (h : ∀ c ∈ kw.data, isRegexMeta c = false) :
    r ∈ filterByCollege kw js ↔
      r ∈ js ∧ ∃ s, r.college = Cell.str s ∧ strContains s kw = true := by
  rw [filterByCollege, List.mem_filter]
  rw [cellMatches_noMeta kw h r.college]

/-- C4 counterexample: with keyword `a.c` (a regex where `.` matches any
character) the filter keeps a row whose college `abc` does not contain
the keyword as a substring, so "kept iff substring" is false as stated. -/
theorem C4_counterexample :
    filterByCollege "a.c"
        [⟨"1", Cell.na, Cell.str "abc", Cell.na, Cell.na, "111", some 50⟩] =
      [⟨"1", Cell.na, Cell.str "abc", Cell.na, Cell.na, "111", some 50⟩] ∧
    strContains "abc" "a.c" = false := by
  constructor
  · rfl
  · rfl

/-- C4 witness at the spec's own example: keyword `计算机` (no
metacharacters) keeps the row of college `计算机学院`. -/
theorem C4_filter_literal_keyword_witness :
    (⟨"1", Cell.na, Cell.str "计算机学院", Cell.na, Cell.na, "111", some 50⟩ : JRowO) ∈
      filterByCollege "计算机"
        [⟨"1", Cell.na, Cell.str "计算机学院", Cell.na, Cell.na, "111", some 50⟩] :=
  (C4_filter_literal_keyword "计算机"
      [⟨"1", Cell.na, Cell.str "计算机学院", Cell.na, Cell.na, "111", some 50⟩]
      ⟨"1", Cell.na, Cell.str "计算机学院", Cell.na, Cell.na, "111", some 50⟩
      (by decide)).mpr
    ⟨by simp, "计算机学院", rfl, by decide⟩

/-- C2 (amended): in every successful run the summary's student count is
the number of group-summary rows (one per distinct five-field tuple —
see `C2_counterexample` for why this is not the distinct-student_id
count), the summary's total cost is the sum of the group rows' totals,
and, whenever at least one group row exists, the mean is their quotient. -/
theorem C2_summary_totals (st bt : RawTable) (kw : String) (o : Output)
    (h : process_data st bt kw = Except.ok o) :
    o.summary.totalStudents = o.result.length ∧
    o.summary.totalCost = (o.result.map (fun g => g.totalCost)).sum ∧
    (o.result ≠ [] →
      o.summary.meanCost =
        some (o.summary.totalCost / (o.summary.totalStudents : ℚ))) := by
  obtain ⟨dfS, dfB, pc, h1, h2, h3, h4⟩ := process_ok st bt kw o h
  obtain ⟨hne, rfl⟩ := aggregate_ok _ _ _ _ h4
  refine ⟨rfl, rfl, fun hres => ?_⟩
  have hie : (groupSummary (filterByCollege kw
      (joinStage (toSRows dfS) (toBRows dfB pc)))).isEmpty = false := by
    simpa [List.isEmpty_iff] using hres
  simp only [mkSummary, hie]
  rfl

/-- C2 witness: the one-student run, with the hypotheses of
`C2_summary_totals` discharged at the concrete input. -/
theorem C2_summary_totals_witness :
    (mkSummary "计算机" "折后价" exFiltered1).totalStudents =
      (groupSummary exFiltered1).length ∧
    (mkSummary "计算机" "折后价" exFiltered1).totalCost =
      ((groupSummary exFiltered1).map (fun g => g.totalCost)).sum ∧
    (mkSummary "计算机" "折后价" exFiltered1).meanCost =
      some ((mkSummary "计算机" "折后价" exFiltered1).totalCost /
        ((mkSummary "计算机" "折后价" exFiltered1).totalStudents : ℚ)) := by
  have h := C2_summary_totals exStudent1 exBook1 "计算机"
      ⟨mkSummary "计算机" "折后价" exFiltered1, groupSummary exFiltered1,
       detailRows exFiltered1⟩ rfl
  exact ⟨h.1, h.2.1, h.2.2 (by decide)⟩

/-- C2 counterexample: one student id on two rows with different names
gives two group rows; the summary counts 2 students although only 1
distinct student_id occurs among the group rows. -/
theorem C2_counterexample :
    (process_data exStudentDupId exBookDup "计算机").map
      (fun o => (o.summary.totalStudents,
                 (uniqList (o.result.map (fun g => g.key.sid))).length)) =
    Except.ok (2, 1) := rfl

/-- C3 (amended): every group-summary row's total is the sum of
`unit_price` over the detail rows matching its full composite key
(student_id, name, college, major, administrative_class) — not over all
rows with the same student_id (see `C3_counterexample`). -/
theorem C3_group_total_eq_detail_sum (st bt : RawTable) (kw : String)
    (o : Output) (h : process_data st bt kw = Except.ok o)
    (g : GRow) (hg : g ∈ o.result) :
    g.totalCost =
      ((o.detail.filter (fun d => dKey d == g.key)).map
        (fun d => d.unitPrice)).sum := by
  obtain ⟨dfS, dfB, pc, h1, h2, h3, h4⟩ := process_ok st bt kw o h
  obtain ⟨hne, rfl⟩ := aggregate_ok _ _ _ _ h4
  simp only [groupSummary, List.mem_map] at hg
  obtain ⟨k, hk, rfl⟩ := hg
  rw [detail_filter_by_key]

/-- C3 witness: the one-student run, with the hypotheses of
`C3_group_total_eq_detail_sum` discharged at the concrete input. -/
theorem C3_group_total_eq_detail_sum_witness :
    exGRow1.totalCost =
      (((detailRows exFiltered1).filter (fun d => dKey d == exGRow1.key)).map
        (fun d => d.unitPrice)).sum :=
  C3_group_total_eq_detail_sum exStudent1 exBook1 "计算机"
    ⟨mkSummary "计算机" "折后价" exFiltered1, groupSummary exFiltered1,
     detailRows exFiltered1⟩ rfl exGRow1
    (show exGRow1 ∈ [exGRow1] from List.mem_singleton.mpr rfl)

/-- C3 counterexample: with one student id on two rows with different
names, each group row totals only its own tuple's rows (50 and 60), while
the detail rows matching the shared student_id sum to 110 — so "sum of
unit_price over matching detail rows for that student_id" is false. -/
theorem C3_counterexample :
    (process_data exStudentDupId exBookDup "计算机").map
      (fun o => (o.result.map (fun g => (g.key.sid, g.key.name, g.totalCost)),
                 ((o.detail.filter (fun d => d.sid == "1")).map
                   (fun d => d.unitPrice)).sum)) =
    Except.ok ([("1", Cell.str "甲", 50), ("1", Cell.str "乙", 60)], 110) := by
  have hrun : process_data exStudentDupId exBookDup "计算机" =
      Except.ok ⟨mkSummary "计算机" "折后价" exFilteredDup,
                 groupSummary exFilteredDup, detailRows exFilteredDup⟩ := rfl
  have e1 : ((⟨"1", Cell.str "甲", Cell.str "计算机学院", Cell.str "软件工程",
               Cell.str "1班"⟩ : GKey) ==
             (⟨"1", Cell.str "乙", Cell.str "计算机学院", Cell.str "软件工程",
               Cell.str "1班"⟩ : GKey)) = false := by decide
  have e2 : ((⟨"1", Cell.str "乙", Cell.str "计算机学院", Cell.str "软件工程",
               Cell.str "1班"⟩ : GKey) ==
             (⟨"1", Cell.str "甲", Cell.str "计算机学院", Cell.str "软件工程",
               Cell.str "1班"⟩ : GKey)) = false := by decide
  rw [hrun]
  simp +decide [exFilteredDup, groupSummary, groupKeys, uniqList, keyOf,
    keyValid, unitP, Cell.isNA, detailRows, List.filter, List.foldl,
    Except.map, e1, e2]
  norm_num

/-- C5: the price resolver returns the earliest marker-pass match
(`折后价`, case-insensitively); only when no column passes it does it
return the earliest discount-pass match (`折` or, case-insensitively,
`discount`); when neither pass matches it returns nothing and the run
fails with the schema-level "no price column" error. -/
theorem C5_price_column_resolution :
    (∀ pre c post, (∀ x ∈ pre, markerMatch x = false) → markerMatch c = true →
        find_price_column (pre ++ c :: post) = some c) ∧
    (∀ pre c post, (∀ x ∈ pre ++ c :: post, markerMatch x = false) →
        (∀ x ∈ pre, discountMatch x = false) → discountMatch c = true →
        find_price_column (pre ++ c :: post) = some c) ∧
    (∀ cols, (∀ x ∈ cols, markerMatch x = false) →
        (∀ x ∈ cols, discountMatch x = false) →
        find_price_column cols = none) ∧
    (∀ st bt kw dfS dfB,
        map_columns st STUDENT_COLUMN_MAP = Except.ok dfS →
        map_columns bt BOOK_COLUMN_MAP = Except.ok dfB →
        find_price_column dfB.cols = none →
        process_data st bt kw = Except.error PErr.noPriceColumn) := by
  refine ⟨?_, ?_, ?_, ?_⟩
  · intro pre c post hpre hc
    rw [find_price_column, find?_first_match markerMatch pre c post hpre hc]
  · intro pre c post hall hpre hc
    rw [find_price_column,
        List.find?_eq_none.mpr (fun x hx => by simp [hall x hx])]
    exact filter_head_match discountMatch pre c post hpre hc
  · intro cols h1 h2
    rw [find_price_column,
        List.find?_eq_none.mpr (fun x hx => by simp [h1 x hx])]
    have : cols.filter discountMatch = [] :=
      List.filter_eq_nil_iff.mpr (fun x hx => by simp [h2 x hx])
    simp [this]
  · intro st bt kw dfS dfB h1 h2 h3
    simp [process_data, h1, h2, h3]

/-- C5 witness: the spec's own example — among
`["ISBN", "折后价", "discount_price"]` the resolver picks `折后价`
(marker pass before discount pass). -/
theorem C5_price_column_resolution_witness :
    find_price_column ["ISBN", "折后价", "discount_price"] = some "折后价" :=
  C5_price_column_resolution.1 ["ISBN"] "折后价" ["discount_price"]
    (by decide) (by decide)

/-- C6 (amended): when the filter keeps zero rows and the first 10
distinct pre-filter college values are all strings, the run fails with
the no-match error carrying the keyword and those sampled names.  (The
`patOK` hypothesis restricts the keyword to the regex fragment the
embedding models; `C6_counterexample` shows that a missing college value
among the samples aborts the run with a type error instead.) -/
theorem C6_no_match_error (st bt : RawTable) (kw : String)
    (dfS dfB : RawTable) (pc : String) (samples : List String)
    (_hkw : patOK kw = true)
    (hS : map_columns st STUDENT_COLUMN_MAP = Except.ok dfS)
    (hB : map_columns bt BOOK_COLUMN_MAP = Except.ok dfB)
    (hpc : find_price_column dfB.cols = some pc)
    (hempty : filterByCollege kw (joinStage (toSRows dfS) (toBRows dfB pc)) = [])
    (hsamples : joinSamples
        ((uniqList ((joinStage (toSRows dfS) (toBRows dfB pc)).map
          (fun r => r.college))).take 10) = some samples) :
    process_data st bt kw = Except.error (PErr.noMatch kw samples) := by
  simp [process_data, hS, hB, hpc, aggregate, hempty, hsamples]

/-- C6 witness: the spec's empty-match scenario — a 文学院-only student
table filtered by `计算机` fails with the no-match error listing 文学院
as the sole sample. -/
theorem C6_no_match_error_witness :
    process_data exStudentWen exBook1 "计算机" =
      Except.error (PErr.noMatch "计算机" ["文学院"]) :=
  C6_no_match_error exStudentWen exBook1 "计算机" exStudentWen exBook1
    "折后价" ["文学院"] (by decide) rfl rfl rfl rfl rfl

/-- C6 counterexample: with a missing (`NaN`) college value in the
pre-filter set and zero rows kept, the sample join raises a `TypeError`,
so the run fails — but not with a `NoMatchError` carrying the keyword and
sampled names, contradicting the claim as stated. -/
theorem C6_counterexample :
    process_data exStudentNaCollege exBook1 "计算机" =
      Except.error PErr.typeError := rfl

/-- C7: every joined row's unit price is the price of the last cleaned
book row (in table order) bearing its ISBN — duplicate ISBNs resolve to
the last-seen price. -/
theorem C7_last_price_wins (ss : List SRow) (bs : List BRow) (r : JRowO)
    (h : r ∈ joinStage ss bs) :
    r.unitPrice = lastPrice (cleanBooks bs) r.isbn := by
  simp only [joinStage, dropNoPrice, List.mem_filter, attachPrice,
    List.mem_map] at h
  obtain ⟨⟨s, hs, rfl⟩, hsome⟩ := h
  simpa using dictGet_priceDict (cleanBooks bs) s.isbn

/-- C7 witness: the spec's duplicate-ISBN scenario — two book rows for
ISBN `111` priced 50 then 60 resolve to 60 for the student holding it. -/
theorem C7_last_price_wins_witness :
    exJoinedRow.unitPrice = lastPrice (cleanBooks exBooksTwice) "111" ∧
    lastPrice (cleanBooks exBooksTwice) "111" = some 60 :=
  ⟨C7_last_price_wins exStudentsHold exBooksTwice exJoinedRow (by decide),
   rfl⟩

/-- C8: when at least one canonical field of the column map has no column
after renaming, the schema normalizer fails with a `SchemaError` whose
missing-field list contains every missing canonical field and nothing
else. -/
theorem C8_missing_columns_error (t : RawTable) (m : List (String × String))
    (h : missingCols m t.cols ≠ []) :
    map_columns t m =
      Except.error (PErr.schemaError (missingCols m t.cols)) ∧
    ∀ k, k ∈ missingCols m t.cols ↔
      (k ∈ m.map Prod.fst ∧ (renameCols m t.cols).contains k = false) := by
  constructor
  · rw [map_columns, if_neg]
    simpa [List.isEmpty_iff] using h
  · intro k
    simp [missingCols, List.mem_filter]

/-- C8 witness: a student table missing the 学院 and 专业 columns errors
with both fields named. -/
theorem C8_missing_columns_error_witness :
    map_columns exStudentMissing STUDENT_COLUMN_MAP =
      Except.error (PErr.schemaError
        (missingCols STUDENT_COLUMN_MAP exStudentMissing.cols)) ∧
    missingCols STUDENT_COLUMN_MAP exStudentMissing.cols = ["学院", "专业"] :=
  ⟨(C8_missing_columns_error exStudentMissing STUDENT_COLUMN_MAP
      (by decide)).1, rfl⟩

/-- C9: every student row that survives the restriction to known ISBNs
gets a present price from the lookup, so the final not-NaN guard drops
nothing — the guarded branch is unreachable. -/
theorem C9_price_guard_redundant (ss2 : List SRow2) (bs2 : List BRow2) :
    dropNoPrice (attachPrice (priceDict bs2) (restrictToKnown ss2 bs2)) =
      attachPrice (priceDict bs2) (restrictToKnown ss2 bs2) := by
  rw [dropNoPrice]
  apply List.filter_eq_self.mpr
  intro r hr
  simp only [attachPrice, List.mem_map] at hr
  obtain ⟨s, hs, rfl⟩ := hr
  simp only [restrictToKnown, List.mem_filter] at hs
  have := lastPrice_isSome bs2 s.isbn hs.2
  simpa [dictGet_priceDict] using this

/-- C10: student-table cleaning drops a row only when both student_id and
ISBN are missing; a retained row is stringified with missing values
becoming the literal string `"nan"`, under which it flows on into the
pipeline (see the witness: such a row is grouped under student_id
`"nan"` in the output). -/
theorem C10_half_missing_row_retained (ss : List SRow) (r : SRow) :
    (r ∈ dropBothNA ss ↔ r ∈ ss ∧ (r.sid.isNA && r.isbn.isNA) = false) ∧
    (r ∈ dropBothNA ss →
      (⟨pyStrip (cellToStr r.sid), r.name, r.college, r.major, r.klass,
        pyStrip (cellToStr r.isbn)⟩ : SRow2) ∈
        stringifyStudent (dropBothNA ss)) ∧
    (r.sid.isNA = true → pyStrip (cellToStr r.sid) = "nan") ∧
    (r.isbn.isNA = true → pyStrip (cellToStr r.isbn) = "nan") := by
  refine ⟨?_, ?_, ?_, ?_⟩
  · rw [dropBothNA, List.mem_filter]
    constructor
    · rintro ⟨h1, h2⟩
      refine ⟨h1, ?_⟩
      cases hx : (r.sid.isNA && r.isbn.isNA)
      · rfl
      · rw [hx] at h2; exact absurd h2 (by simp)
    · rintro ⟨h1, h2⟩
      exact ⟨h1, by simp [h2]⟩
  · intro hmem
    rw [stringifyStudent]
    exact List.mem_map.mpr ⟨r, hmem, rfl⟩
  · intro h
    have hna : r.sid = Cell.na := by
      cases hx : r.sid <;> rw [hx] at h <;> first | rfl | exact absurd h (by simp [Cell.isNA])
    rw [hna]; decide
  · intro h
    have hna : r.isbn = Cell.na := by
      cases hx : r.isbn <;> rw [hx] at h <;> first | rfl | exact absurd h (by simp [Cell.isNA])
    rw [hna]; decide

/-- C10 witness: a row missing only its student_id is retained, its id
stringifies to `"nan"`, and the full run groups it under student_id
`"nan"` in the group-summary output. -/
theorem C10_half_missing_row_retained_witness :
    (⟨"nan", Cell.str "甲", Cell.str "计算机学院", Cell.str "软",
      Cell.str "班", "111"⟩ : SRow2) ∈
      stringifyStudent (dropBothNA [exRowNaSid]) ∧
    (process_data exStudentNaSid exBook1 "计算机").map
        (fun o => o.result.map (fun g => g.key.sid)) =
      Except.ok ["nan"] := by
  have h := C10_half_missing_row_retained [exRowNaSid] exRowNaSid
  exact ⟨h.2.1 (h.1.mpr ⟨by decide, by decide⟩), rfl⟩
